import Mathlib

/-!
Shallow embedding of the dual-investment / option yield comparison server
(src/server.py) over exact rationals, together with theorems checking the
specification's claims about it.

Modelling conventions:
* Python floats are modelled as `ℚ`; `round(x, n)` is modelled by `roundTo n`
  (round half towards +infinity on exact rationals).
* The wall clock (`datetime.now`) is passed in explicitly as `now`, the number
  of seconds since the Unix epoch, so `_days_until` becomes a pure function.
* The three upstream fetches of `compare` (spot price, product listing,
  ticker snapshot) are modelled as inputs: `spot : ℚ`, `products : List Product`
  and `tickers : String → Option Ticker` (the dict built by
  `fetch_option_tickers`, accessed with `dict.get`).
* A ticker's `bidPrice` / `bidQty` JSON fields may be missing, null, an empty
  string or a number; `float(t.get("bidPrice", 0) or 0)` coerces the first
  three cases to 0, which `BidField.toQ` reproduces.
* All functions are total, so "never raises" claims are expressed by the
  classification always producing a value.
-/

namespace OptionData

/-- The `optionType` of a dual-investment product: CALL (sell-high) or PUT
(buy-low). -/
inductive Direction where
  | CALL
  | PUT
deriving DecidableEq

/-- Python's `round(x, n)` on exact rationals: multiply by `10 ^ n`, round to
the nearest integer, divide back.  Ties go up (Python rounds ties to even on
binary floats; no value in this development sits on a tie). -/
def roundTo (n : ℕ) (x : ℚ) : ℚ := ((round (x * 10 ^ n) : ℤ) : ℚ) / 10 ^ n

/-- Proleptic Gregorian date `(year, month, day)` of a day count relative to
the Unix epoch (1970-01-01 is day 0).  Standard civil-from-days algorithm;
models Python's `datetime.fromtimestamp(_, tz=timezone.utc)` date part. -/
def civilFromDays (days : ℤ) : ℤ × ℤ × ℤ :=
  let z := days + 719468
  let era := Int.fdiv z 146097
  let doe := z - era * 146097
  let yoe := (doe - doe / 1460 + doe / 36524 - doe / 146096) / 365
  let y := yoe + era * 400
  let doy := doe - (365 * yoe + yoe / 4 - yoe / 100)
  let mp := (5 * doy + 2) / 153
  let d := doy - (153 * mp + 2) / 5 + 1
  let m := mp + (if mp < 10 then 3 else -9)
  (y + (if m ≤ 2 then 1 else 0), m, d)

/-- Two-digit zero-padded rendering of a number in `[0, 99]` (strftime's
`%y`, `%m`, `%d` field padding). -/
def pad2 (n : ℤ) : String := if n < 10 then "0" ++ toString n else toString n

/-- Decimal digits of a fractional part `x ∈ [0, 1)`, most significant first,
stopping at 0 (with fuel, ample for any value a Python float can carry).
Used to model `str(float)` for non-integral values. -/
def fracDigits : ℕ → ℚ → String
  | 0, _ => ""
  | n + 1, x =>
    if x = 0 then ""
    else toString ⌊x * 10⌋ ++ fracDigits n (x * 10 - (⌊x * 10⌋ : ℚ))

/-- server.py `_format_strike`: format the strike as an integer string when it
is a whole number (`3500` not `3500.0`), otherwise keep its decimal value. -/
def _format_strike (price : ℚ) : String :=
  if price.den = 1 then toString price.num
  else
    (if price < 0 then "-" else "") ++ toString (⌊|price|⌋ : ℤ) ++ "."
      ++ fracDigits 17 (|price| - (⌊|price|⌋ : ℚ))

/-- server.py `_expiry_yymmdd`: millisecond timestamp to a `YYMMDD` string in
UTC. -/
def _expiry_yymmdd (tsMs : ℤ) : String :=
  let d := civilFromDays (Int.fdiv tsMs 86400000)
  pad2 (d.1 % 100) ++ pad2 d.2.1 ++ pad2 d.2.2

/-- server.py `_expiry_date`: millisecond timestamp to a `YYYY-MM-DD` string
in UTC. -/
def _expiry_date (tsMs : ℤ) : String :=
  let d := civilFromDays (Int.fdiv tsMs 86400000)
  toString d.1 ++ "-" ++ pad2 d.2.1 ++ "-" ++ pad2 d.2.2

/-- server.py `_days_until`: fractional days from `now` (seconds since epoch,
UTC) until the millisecond timestamp, floored at 0.01, rounded to 2 decimal
places. -/
def _days_until (tsMs : ℤ) (now : ℚ) : ℚ :=
  roundTo 2 (max (((tsMs : ℚ) / 1000 - now) / 86400) 0.01)

/-- Python's `int()` truncation towards zero on a rational. -/
def truncInt (x : ℚ) : ℤ := if 0 ≤ x then ⌊x⌋ else ⌈x⌉

/-- server.py `_days_label`: under a day, integer hours; otherwise the ceiling
of days. -/
def _days_label (days : ℚ) : String :=
  if days < 1 then toString (truncInt (days * 24)) ++ "小时"
  else toString (⌈days⌉ : ℤ) ++ "天"

/-- The single letter of a direction in an option symbol
(`"C" if opt_type == "CALL" else "P"`). -/
def dirLetter : Direction → String
  | .CALL => "C"
  | .PUT => "P"

/-- Option symbol derivation (server.py compare, lines 164-167):
`{coin}-{yymmdd}-{strike}-{C|P}`. -/
def deriveOptionSymbol (coin : String) (optType : Direction) (strike : ℚ)
    (settleTs : ℤ) : String :=
  coin ++ "-" ++ _expiry_yymmdd settleTs ++ "-" ++ _format_strike strike
    ++ "-" ++ dirLetter optType

/-- The human-readable direction label
(`f"{opt_type} ({'高卖' if opt_type == 'CALL' else '低买'})"`). -/
def typeLabel : Direction → String
  | .CALL => "CALL (高卖)"
  | .PUT => "PUT (低买)"

/-- A numeric JSON field of a ticker as received from the venue: missing from
the object, JSON null, empty string, or a number. -/
inductive BidField where
  | missing
  | null
  | empty
  | num (q : ℚ)
deriving DecidableEq

/-- Coercion performed by `float(ticker.get("bidPrice", 0) or 0)`:
absent, null and empty (all falsy, or absent with default 0) become 0. -/
def BidField.toQ : BidField → ℚ
  | .num q => q
  | _ => 0

/-- A live option quote, keyed by symbol in the ticker snapshot. -/
structure Ticker where
  bidPrice : BidField
  bidQty : BidField
deriving DecidableEq

/-- A dual-investment product as consumed by `compare` (fields read at
server.py lines 159-162 plus the tagged invest coin). -/
structure Product where
  optionType : Direction
  strikePrice : ℚ
  settleDate : ℤ
  apr : ℚ
  investCoin : String
deriving DecidableEq

/-- The unrounded yield-normalization quantities of a matched pair
(server.py compare, lines 195-214). -/
structure Metrics where
  fee : ℚ
  netBid : ℚ
  optionAprGross : ℚ
  optionAprNet : ℚ
  feeApr : ℚ
  diffApr : ℚ
  spreadPct : ℚ
  dualProfit : ℚ
  optionProfit : ℚ
  extraProfit : ℚ
deriving DecidableEq

/-- Yield normalization of a matched pair (server.py compare, lines 195-214),
before any presentation rounding: trading fee 0.024% of spot, net bid, gross
and net option APR (payoff base is the strike for PUT, the spot for CALL),
fee APR, differential APR, spread percentage, and profit projections over the
holding period at the fixed invest amount. -/
def normalize (investAmount spot : ℚ) (optType : Direction)
    (strike days dualApr bid : ℚ) : Metrics :=
  let fee := spot * 0.00024
  let netBid := bid - fee
  let optionAprGross :=
    match optType with
    | .PUT => (bid / strike) * (365 / days)
    | .CALL => (bid / spot) * (365 / days)
  let optionAprNet :=
    match optType with
    | .PUT => (netBid / strike) * (365 / days)
    | .CALL => (netBid / spot) * (365 / days)
  let feeApr := optionAprGross - optionAprNet
  let diffApr := optionAprNet - dualApr
  let spreadPct := if optionAprNet > 0 then diffApr / optionAprNet * 100 else 0
  let period := days / 365
  let dualProfit := investAmount * dualApr * period
  let optionProfit := investAmount * optionAprNet * period
  let extraProfit := optionProfit - dualProfit
  { fee := fee, netBid := netBid, optionAprGross := optionAprGross,
    optionAprNet := optionAprNet, feeApr := feeApr, diffApr := diffApr,
    spreadPct := spreadPct, dualProfit := dualProfit,
    optionProfit := optionProfit, extraProfit := extraProfit }

/-- One matched (product, ticker) pair with derived metrics: the dict appended
to `results` (server.py lines 219-242), numeric fields presentation-rounded
exactly as in the source. -/
structure Row where
  coin : String
  type : Direction
  typeLabel : String
  investCoin : String
  strike : ℚ
  expiry : String
  days : ℚ
  daysLabel : String
  spotPrice : ℚ
  dualAPR : ℚ
  optionBid : ℚ
  bidQty : ℚ
  bidNotional : ℚ
  optionAPR : ℚ
  optionAPRNet : ℚ
  feeAPR : ℚ
  diffAPR : ℚ
  spreadPct : ℚ
  dualProfit : ℚ
  optionProfit : ℚ
  extraProfit : ℚ
  optionSymbol : String
deriving DecidableEq

/-- A product without a positive-bid ticker: the dict appended to `unmatched`
(server.py lines 180-192). -/
structure Unmatched where
  coin : String
  type : Direction
  typeLabel : String
  investCoin : String
  strike : ℚ
  expiry : String
  days : ℚ
  daysLabel : String
  dualAPR : ℚ
  optionSymbol : String
  reason : String
deriving DecidableEq

/-- Classification of one product against the ticker snapshot: the body of the
`for p in products` loop of `compare` (server.py lines 158-242). -/
def stepProduct (coin : String) (investAmount spot now : ℚ)
    (tickers : String → Option Ticker) (p : Product) : Sum Row Unmatched :=
  let strike := p.strikePrice
  let settleTs := p.settleDate
  let dualApr := p.apr
  let optionSymbol := deriveOptionSymbol coin p.optionType strike settleTs
  let days := _days_until settleTs now
  let expiry := _expiry_date settleTs
  let tk := tickers optionSymbol
  let bid := match tk with
    | some t => t.bidPrice.toQ
    | none => 0
  let bidQty := match tk with
    | some t => t.bidQty.toQ
    | none => 0
  if bid ≤ 0 then
    Sum.inr {
      coin := coin
      type := p.optionType
      typeLabel := typeLabel p.optionType
      investCoin := p.investCoin
      strike := strike
      expiry := expiry
      days := days
      daysLabel := _days_label days
      dualAPR := dualApr
      optionSymbol := optionSymbol
      reason := match tk with
        | some _ => "no bid"
        | none => "no contract" }
  else
    let m := normalize investAmount spot p.optionType strike days dualApr bid
    let bidNotional := bidQty * spot
    Sum.inl {
      coin := coin
      type := p.optionType
      typeLabel := typeLabel p.optionType
      investCoin := p.investCoin
      strike := strike
      expiry := expiry
      days := days
      daysLabel := _days_label days
      spotPrice := spot
      dualAPR := roundTo 6 dualApr
      optionBid := roundTo 4 bid
      bidQty := roundTo 4 bidQty
      bidNotional := roundTo 2 bidNotional
      optionAPR := roundTo 6 m.optionAprGross
      optionAPRNet := roundTo 6 m.optionAprNet
      feeAPR := roundTo 6 m.feeApr
      diffAPR := roundTo 6 m.diffApr
      spreadPct := roundTo 2 m.spreadPct
      dualProfit := roundTo 2 m.dualProfit
      optionProfit := roundTo 2 m.optionProfit
      extraProfit := roundTo 2 m.extraProfit
      optionSymbol := optionSymbol }

/-- Order-preserving split of the classified products into the `results` and
`unmatched` sequences of the loop. -/
def splitProducts (f : Product → Sum Row Unmatched) :
    List Product → List Row × List Unmatched
  | [] => ([], [])
  | p :: ps =>
    let rest := splitProducts f ps
    match f p with
    | Sum.inl r => (r :: rest.1, rest.2)
    | Sum.inr u => (rest.1, u :: rest.2)

/-- The summary statistics (server.py lines 244-254): count, unmatched count,
average/max/min spread percentage and average differential APR, each taken
over the (already rounded) row fields, defaulting to 0 on an empty row set. -/
structure Stats where
  count : ℕ
  unmatched : ℕ
  avgSpread : ℚ
  maxSpread : ℚ
  minSpread : ℚ
  avgDiffAPR : ℚ
deriving DecidableEq

/-- Computation of the summary statistics from the row and unmatched lists
(server.py lines 244-254). -/
def computeStats (results : List Row) (unmatched : List Unmatched) : Stats :=
  let spreads := results.map (fun r => r.spreadPct)
  let diffs := results.map (fun r => r.diffAPR)
  { count := results.length
    unmatched := unmatched.length
    avgSpread :=
      if spreads.isEmpty then 0
      else roundTo 2 (spreads.sum / (spreads.length : ℚ))
    maxSpread :=
      match spreads with
      | [] => 0
      | s :: rest => roundTo 2 (rest.foldl max s)
    minSpread :=
      match spreads with
      | [] => 0
      | s :: rest => roundTo 2 (rest.foldl min s)
    avgDiffAPR :=
      if diffs.isEmpty then 0
      else roundTo 6 (diffs.sum / (diffs.length : ℚ)) }

/-- The full comparison response (server.py lines 256-263); the wall-clock
timestamp string is omitted (pure I/O). -/
structure CompareResult where
  coin : String
  spotPrice : ℚ
  results : List Row
  unmatched : List Unmatched
  stats : Stats
deriving DecidableEq

/-- server.py `compare`, with the fetched data passed in: classify every
product in order, then compute statistics over the matched rows. -/
def compare (coin : String) (spot now : ℚ) (tickers : String → Option Ticker)
    (products : List Product) : CompareResult :=
  let investAmount : ℚ := 100000
  let split := splitProducts (stepProduct coin investAmount spot now tickers) products
  { coin := coin
    spotPrice := spot
    results := split.1
    unmatched := split.2
    stats := computeStats split.1 split.2 }

/-- The unrounded differential APRs of the matched pairs of a run, in product
order: for every product classified as a row, the diffApr of its normalized
metrics before any presentation rounding.  Companion definition used to test
the spec sentence that the aggregate statistics are computed from unrounded
intermediate values. -/
def unroundedDiffs (coin : String) (investAmount spot now : ℚ)
    (tickers : String → Option Ticker) : List Product → List ℚ
  | [] => []
  | p :: ps =>
    let rest := unroundedDiffs coin investAmount spot now tickers ps
    match stepProduct coin investAmount spot now tickers p with
    | Sum.inl _ =>
      (normalize investAmount spot p.optionType p.strikePrice
        (_days_until p.settleDate now) p.apr
        (match tickers (deriveOptionSymbol coin p.optionType p.strikePrice p.settleDate) with
          | some t => t.bidPrice.toQ
          | none => 0)).diffApr :: rest
    | Sum.inr _ => rest

/-- Average differential APR recomputed the way the spec describes the
statistics — from the unrounded per-pair differentials, rounded only once for
presentation.  Compared against the avgDiffAPR the code computes. -/
def avgDiffAPRUnrounded (coin : String) (spot now : ℚ)
    (tickers : String → Option Ticker) (products : List Product) : ℚ :=
  let ds := unroundedDiffs coin 100000 spot now tickers products
  if ds.isEmpty then 0 else roundTo 6 (ds.sum / (ds.length : ℚ))

/-- Concrete ticker used in counterexample and witness runs: bid 1, qty 0. -/
def cexTicker : Ticker := { bidPrice := BidField.num 1, bidQty := BidField.num 0 }

/-- Concrete ticker snapshot holding only the symbol the counterexample
products map to. -/
def cexTickers : String → Option Ticker :=
  fun s => if s = "ETH-700102-1000-P" then some cexTicker else none

/-- Counterexample product: PUT, strike 1000, settling one day after the epoch,
with a stated APR 0.0000007 below the matched option's net APR 0.2774. -/
def cexProduct1 : Product :=
  { optionType := Direction.PUT, strikePrice := 1000, settleDate := 86400000,
    apr := 0.2773993, investCoin := "USDT" }

/-- Counterexample product: same contract, stated APR exactly the option's net
APR 0.2774. -/
def cexProduct2 : Product :=
  { optionType := Direction.PUT, strikePrice := 1000, settleDate := 86400000,
    apr := 0.2774, investCoin := "USDT" }

/-- Three-product counterexample listing. -/
def cexProducts : List Product := [cexProduct1, cexProduct1, cexProduct2]

/-- A default row, used only as the never-taken fallback when extracting the
row a concrete classification produces. -/
def dummyRow : Row :=
  { coin := "", type := Direction.CALL, typeLabel := "", investCoin := "",
    strike := 0, expiry := "", days := 0, daysLabel := "", spotPrice := 0,
    dualAPR := 0, optionBid := 0, bidQty := 0, bidNotional := 0, optionAPR := 0,
    optionAPRNet := 0, feeAPR := 0, diffAPR := 0, spreadPct := 0,
    dualProfit := 0, optionProfit := 0, extraProfit := 0, optionSymbol := "" }

/-- The row the counterexample run produces for cexProduct1. -/
def cexRow1 : Row :=
  match stepProduct "ETH" 100000 1000 0 cexTickers cexProduct1 with
  | Sum.inl r => r
  | Sum.inr _ => dummyRow

/-- Witness ticker with a positive bid. -/
def exTicker1 : Ticker := { bidPrice := BidField.num 1, bidQty := BidField.num 2 }

/-- Witness ticker with a zero bid (listed but no liquidity). -/
def exTicker0 : Ticker := { bidPrice := BidField.num 0, bidQty := BidField.num 0 }

/-- Witness ticker whose bidPrice field is JSON null. -/
def exTickerNull : Ticker := { bidPrice := BidField.null, bidQty := BidField.num 0 }

/-- Witness ticker whose positive bid 0.2 is below the fee 0.24 at spot 1000. -/
def exTickerLow : Ticker := { bidPrice := BidField.num (0.2 : ℚ), bidQty := BidField.num 0 }

/-- Witness snapshot: strike-1000 symbol quoted with a positive bid,
strike-2000 symbol quoted with a zero bid, nothing else listed. -/
def exTickers : String → Option Ticker :=
  fun s =>
    if s = "ETH-700102-1000-P" then some exTicker1
    else if s = "ETH-700102-2000-P" then some exTicker0
    else none

/-- Witness snapshot where the only quote has a null bidPrice. -/
def exTickersNull : String → Option Ticker :=
  fun s => if s = "ETH-700102-1000-P" then some exTickerNull else none

/-- Witness snapshot where the only quote has bid 0.2. -/
def exTickersLow : String → Option Ticker :=
  fun s => if s = "ETH-700102-1000-P" then some exTickerLow else none

/-- Witness product mapping to the strike-1000 symbol. -/
def exProdA : Product :=
  { optionType := Direction.PUT, strikePrice := 1000, settleDate := 86400000,
    apr := 0.10, investCoin := "USDT" }

/-- Witness product mapping to the strike-2000 symbol. -/
def exProdB : Product :=
  { optionType := Direction.PUT, strikePrice := 2000, settleDate := 86400000,
    apr := 0.10, investCoin := "USDT" }

/-- Witness product mapping to a symbol with no quote. -/
def exProdC : Product :=
  { optionType := Direction.PUT, strikePrice := 3000, settleDate := 86400000,
    apr := 0.10, investCoin := "USDT" }

/-! ### Helper lemmas -/

theorem roundTo_mono {n : ℕ} {x y : ℚ} (h : x ≤ y) : roundTo n x ≤ roundTo n y := by
  have hp : (0:ℚ) < 10 ^ n := by positivity
  have h2 : round (x * 10 ^ n) ≤ round (y * 10 ^ n) := by
    rw [round_eq, round_eq]
    exact Int.floor_mono (by nlinarith)
  rw [roundTo, roundTo]
  gcongr

theorem roundTo_zero (n : ℕ) : roundTo n 0 = 0 := by
  simp [roundTo]

theorem roundTo_nonpos {n : ℕ} {x : ℚ} (h : x ≤ 0) : roundTo n x ≤ 0 :=
  (roundTo_mono h).trans_eq (roundTo_zero n)

theorem roundTo_eq_div {n : ℕ} {x : ℚ} {k : ℤ} (h1 : (k : ℚ) ≤ x * 10 ^ n + 1/2)
    (h2 : x * 10 ^ n + 1/2 < k + 1) : roundTo n x = (k : ℚ) / 10 ^ n := by
  have h3 : round (x * 10 ^ n) = k := by
    rw [round_eq]
    exact Int.floor_eq_iff.mpr ⟨h1, by exact_mod_cast h2⟩
  rw [roundTo, h3]

theorem le_days_until (tsMs : ℤ) (now : ℚ) : (0.01 : ℚ) ≤ _days_until tsMs now := by
  have h1 : roundTo 2 (0.01 : ℚ) = 0.01 := by
    have h := roundTo_eq_div (n := 2) (x := (0.01 : ℚ)) (k := 1) (by norm_num) (by norm_num)
    rw [h]; norm_num
  calc (0.01 : ℚ) = roundTo 2 0.01 := h1.symm
    _ ≤ roundTo 2 (max (((tsMs : ℚ) / 1000 - now) / 86400) 0.01) :=
        roundTo_mono (le_max_right _ _)
    _ = _days_until tsMs now := rfl

theorem days_until_pos (tsMs : ℤ) (now : ℚ) : 0 < _days_until tsMs now :=
  lt_of_lt_of_le (by norm_num) (le_days_until tsMs now)

theorem splitProducts_length (f : Product → Sum Row Unmatched) (l : List Product) :
    (splitProducts f l).1.length + (splitProducts f l).2.length = l.length := by
  induction l with
  | nil => rfl
  | cons p ps ih =>
    simp only [splitProducts]
    cases f p <;> simp only [List.length_cons] <;> omega

theorem normalize_fee (inv S K T A B : ℚ) (d : Direction) :
    (normalize inv S d K T A B).fee = S * 0.00024 := rfl

theorem normalize_netBid (inv S K T A B : ℚ) (d : Direction) :
    (normalize inv S d K T A B).netBid = B - S * 0.00024 := rfl

theorem normalize_gross_put (inv S K T A B : ℚ) :
    (normalize inv S Direction.PUT K T A B).optionAprGross = (B / K) * (365 / T) := rfl

theorem normalize_gross_call (inv S K T A B : ℚ) :
    (normalize inv S Direction.CALL K T A B).optionAprGross = (B / S) * (365 / T) := rfl

theorem normalize_net_put (inv S K T A B : ℚ) :
    (normalize inv S Direction.PUT K T A B).optionAprNet
      = ((B - S * 0.00024) / K) * (365 / T) := rfl

theorem normalize_net_call (inv S K T A B : ℚ) :
    (normalize inv S Direction.CALL K T A B).optionAprNet
      = ((B - S * 0.00024) / S) * (365 / T) := rfl

theorem normalize_diffApr (inv S K T A B : ℚ) (d : Direction) :
    (normalize inv S d K T A B).diffApr
      = (normalize inv S d K T A B).optionAprNet - A := by
  cases d <;> rfl

theorem normalize_spreadPct (inv S K T A B : ℚ) (d : Direction) :
    (normalize inv S d K T A B).spreadPct
      = if (normalize inv S d K T A B).optionAprNet > 0
        then (normalize inv S d K T A B).diffApr
          / (normalize inv S d K T A B).optionAprNet * 100
        else 0 := by
  cases d <;> rfl

/-! ### Claim theorems -/

/-- C2: in every comparison run, each product contributes exactly one entry to
exactly one of the two output sequences, so the lengths of the row list and
the unmatched list add up to the length of the product list. -/
theorem partition_complete (coin : String) (spot now : ℚ)
    (tickers : String → Option Ticker) (products : List Product) :
    (compare coin spot now tickers products).results.length
      + (compare coin spot now tickers products).unmatched.length
      = products.length := by
  simp only [compare]
  exact splitProducts_length _ products

/-- C5: for every timestamp and every current time, `_days_until` returns the
fractional day count from now to the timestamp floored at 0.01 and rounded to
2 decimal places, and its result is always at least 0.01. -/
theorem days_until_min (tsMs : ℤ) (now : ℚ) :
    _days_until tsMs now
      = roundTo 2 (max (((tsMs : ℚ) / 1000 - now) / 86400) 0.01) ∧
    (0.01 : ℚ) ≤ _days_until tsMs now :=
  ⟨rfl, le_days_until tsMs now⟩

/-- C3: classification of one product in a comparison run.  If no ticker
exists under the derived symbol, an unmatched entry with reason
"no contract" results; if a ticker exists but its bid coerces to a value
at most 0, an unmatched entry with reason "no bid" results; if the bid is
positive a comparison row results; and conversely every comparison row comes
from a ticker with positive bid (the liquidity gate).  (The spec writes the
two reason codes as `no-contract` / `no-bid`; the source's literal strings
are "no contract" / "no bid".) -/
theorem matching_classification (coin : String) (inv spot now : ℚ)
    (tickers : String → Option Ticker) (p : Product) :
    (tickers (deriveOptionSymbol coin p.optionType p.strikePrice p.settleDate) = none →
      ∃ u, stepProduct coin inv spot now tickers p = Sum.inr u
        ∧ u.reason = "no contract") ∧
    (∀ t, tickers (deriveOptionSymbol coin p.optionType p.strikePrice p.settleDate) = some t →
      t.bidPrice.toQ ≤ 0 →
      ∃ u, stepProduct coin inv spot now tickers p = Sum.inr u
        ∧ u.reason = "no bid") ∧
    (∀ t, tickers (deriveOptionSymbol coin p.optionType p.strikePrice p.settleDate) = some t →
      0 < t.bidPrice.toQ →
      ∃ r, stepProduct coin inv spot now tickers p = Sum.inl r) ∧
    (∀ r, stepProduct coin inv spot now tickers p = Sum.inl r →
      ∃ t, tickers (deriveOptionSymbol coin p.optionType p.strikePrice p.settleDate) = some t
        ∧ 0 < t.bidPrice.toQ) := by
  refine ⟨?_, ?_, ?_, ?_⟩
  · intro h
    simp only [stepProduct, h]
    exact ⟨_, rfl, rfl⟩
  · intro t h hb
    simp only [stepProduct, h]
    rw [if_pos hb]
    exact ⟨_, rfl, rfl⟩
  · intro t h hb
    simp only [stepProduct, h]
    rw [if_neg (not_le.mpr hb)]
    exact ⟨_, rfl⟩
  · intro r h
    cases htk : tickers (deriveOptionSymbol coin p.optionType p.strikePrice p.settleDate) with
    | none => simp [stepProduct, htk] at h
    | some t =>
      by_cases hb : t.bidPrice.toQ ≤ 0
      · simp [stepProduct, htk, hb] at h
      · exact ⟨t, rfl, not_le.mp hb⟩

/-- C4: when the row set of a comparison run is empty, all four aggregate
statistics (average, max and min spread, average differential APR) are 0;
the statistics are computed from the row list only, and the computation is a
total function (no division-by-zero failure is possible). -/
theorem stats_empty_zero (coin : String) (spot now : ℚ)
    (tickers : String → Option Ticker) (products : List Product)
    (h : (compare coin spot now tickers products).results = []) :
    (compare coin spot now tickers products).stats.avgSpread = 0 ∧
    (compare coin spot now tickers products).stats.maxSpread = 0 ∧
    (compare coin spot now tickers products).stats.minSpread = 0 ∧
    (compare coin spot now tickers products).stats.avgDiffAPR = 0 := by
  simp only [compare] at h ⊢
  rw [h]
  simp [computeStats]

/-- C8: for fixed spot, strike and days, the net option APR never exceeds the
gross option APR in either direction branch (the fee is non-negative), both
for the unrounded metrics and for the rounded row values. -/
theorem fee_monotone (inv S K T A B : ℚ) (d : Direction)
    (hS : 0 < S) (hK : 0 < K) (hT : 0 < T) :
    (normalize inv S d K T A B).optionAprNet
      ≤ (normalize inv S d K T A B).optionAprGross ∧
    roundTo 6 (normalize inv S d K T A B).optionAprNet
      ≤ roundTo 6 (normalize inv S d K T A B).optionAprGross := by
  have hmain : (normalize inv S d K T A B).optionAprNet
      ≤ (normalize inv S d K T A B).optionAprGross := by
    have h1 : B - S * 0.00024 ≤ B := by nlinarith
    cases d with
    | PUT =>
      rw [normalize_net_put, normalize_gross_put]
      have h365 : (0:ℚ) ≤ 365 / T := by positivity
      gcongr
    | CALL =>
      rw [normalize_net_call, normalize_gross_call]
      have h365 : (0:ℚ) ≤ 365 / T := by positivity
      gcongr
  exact ⟨hmain, roundTo_mono hmain⟩

/-- C9: when the matched ticker's bidPrice field is missing, null or an empty
string, the bid is coerced to 0 and the product is classified as unmatched
with reason "no bid"; the classification is total, so no exception can be
raised by a missing or null field. -/
theorem missing_bid_coerced (coin : String) (inv spot now : ℚ)
    (tickers : String → Option Ticker) (p : Product) (t : Ticker)
    (htk : tickers (deriveOptionSymbol coin p.optionType p.strikePrice p.settleDate) = some t)
    (hb : t.bidPrice = BidField.missing ∨ t.bidPrice = BidField.null
      ∨ t.bidPrice = BidField.empty) :
    t.bidPrice.toQ = 0 ∧
    ∃ u, stepProduct coin inv spot now tickers p = Sum.inr u
      ∧ u.reason = "no bid" := by
  have h0 : t.bidPrice.toQ = 0 := by
    rcases hb with h | h | h <;> rw [h] <;> rfl
  refine ⟨h0, ?_⟩
  simp only [stepProduct, htk]
  rw [if_pos (le_of_eq h0)]
  exact ⟨_, rfl, rfl⟩

/-- C1 counterexample: in the spec's worked example the gross option APR is
(15/2900)*(365/7) = 5475/20300 ≈ 0.26970, which is 0.2697 to four decimal
places, not the 0.2696 the claim states. -/
theorem worked_example_gross_cex :
    roundTo 4 (normalize 100000 3000 Direction.PUT 2900 7 (0.10 : ℚ) 15).optionAprGross
      ≠ 0.2696 := by
  rw [normalize_gross_put]
  have h := roundTo_eq_div (n := 4) (x := ((15:ℚ) / 2900) * (365 / 7)) (k := 2697)
    (by norm_num) (by norm_num)
  rw [h]
  norm_num

/-- C1 (amended): for positive spot, strike, days and bid the yield normalizer
computes fee = S * 0.00024, netBid = B - fee, gross and net option APR as
(price/K)*(365/T) for PUT and (price/S)*(365/T) for CALL with price = B
resp. netBid, and differential APR = net APR - product APR; on the worked
example (spot 3000, strike 2900 PUT, bid 15, days 7, product APR 0.10) this
gives fee = 0.72, netBid = 14.28, grossAPR ≈ 0.2697 (not 0.2696 as the claim
states), netAPR ≈ 0.2568, diffAPR ≈ 0.1568 and spreadPct ≈ 61.05. -/
theorem yield_normalizer_formulas (inv S K T A B : ℚ) (d : Direction)
    (hS : 0 < S) (hK : 0 < K) (hT : 0 < T) (hB : 0 < B) :
    (normalize inv S d K T A B).fee = S * 0.00024 ∧
    (normalize inv S d K T A B).netBid = B - S * 0.00024 ∧
    (normalize inv S Direction.PUT K T A B).optionAprGross = (B / K) * (365 / T) ∧
    (normalize inv S Direction.CALL K T A B).optionAprGross = (B / S) * (365 / T) ∧
    (normalize inv S Direction.PUT K T A B).optionAprNet
      = ((B - S * 0.00024) / K) * (365 / T) ∧
    (normalize inv S Direction.CALL K T A B).optionAprNet
      = ((B - S * 0.00024) / S) * (365 / T) ∧
    (normalize inv S d K T A B).diffApr = (normalize inv S d K T A B).optionAprNet - A ∧
    (normalize 100000 3000 Direction.PUT 2900 7 (0.10 : ℚ) 15).fee = 0.72 ∧
    (normalize 100000 3000 Direction.PUT 2900 7 (0.10 : ℚ) 15).netBid = 14.28 ∧
    roundTo 4 (normalize 100000 3000 Direction.PUT 2900 7 (0.10 : ℚ) 15).optionAprGross
      = 0.2697 ∧
    roundTo 4 (normalize 100000 3000 Direction.PUT 2900 7 (0.10 : ℚ) 15).optionAprNet
      = 0.2568 ∧
    roundTo 4 (normalize 100000 3000 Direction.PUT 2900 7 (0.10 : ℚ) 15).diffApr
      = 0.1568 ∧
    roundTo 2 (normalize 100000 3000 Direction.PUT 2900 7 (0.10 : ℚ) 15).spreadPct
      = 61.05 := by
  refine ⟨normalize_fee inv S K T A B d, normalize_netBid inv S K T A B d,
    normalize_gross_put inv S K T A B, normalize_gross_call inv S K T A B,
    normalize_net_put inv S K T A B, normalize_net_call inv S K T A B,
    normalize_diffApr inv S K T A B d, ?_, ?_, ?_, ?_, ?_, ?_⟩
  · rw [normalize_fee]; norm_num
  · rw [normalize_netBid]; norm_num
  · rw [normalize_gross_put]
    have h := roundTo_eq_div (n := 4) (x := ((15:ℚ) / 2900) * (365 / 7)) (k := 2697)
      (by norm_num) (by norm_num)
    rw [h]; norm_num
  · rw [normalize_net_put]
    have h := roundTo_eq_div (n := 4)
      (x := (((15:ℚ) - 3000 * 0.00024) / 2900) * (365 / 7)) (k := 2568)
      (by norm_num) (by norm_num)
    rw [h]; norm_num
  · rw [normalize_diffApr, normalize_net_put]
    have h := roundTo_eq_div (n := 4)
      (x := (((15:ℚ) - 3000 * 0.00024) / 2900) * (365 / 7) - 0.10) (k := 1568)
      (by norm_num) (by norm_num)
    rw [h]; norm_num
  · have hsp : (normalize 100000 3000 Direction.PUT 2900 7 (0.10 : ℚ) 15).spreadPct
        = 1591100 / 26061 := by
      rw [normalize_spreadPct, normalize_diffApr, normalize_net_put,
        if_pos (by norm_num : ((((15:ℚ) - 3000 * 0.00024) / 2900) * (365 / 7) : ℚ) > 0)]
      norm_num
    rw [hsp]
    have h := roundTo_eq_div (n := 2) (x := (1591100 : ℚ) / 26061) (k := 6105)
      (by norm_num) (by norm_num)
    rw [h]; norm_num

/-- C6: deriveOptionSymbol is a pure function of underlying, direction,
strike and settlement; on (ETH, PUT, 3500.0, 2024-06-28T08:00:00Z) it yields
"ETH-240628-3500-P", on strike 3450.5 it yields "ETH-240628-3450.5-P", and a
whole-number strike is always rendered as its integer part with no
fractional suffix. -/
theorem derive_option_symbol_spec :
    deriveOptionSymbol "ETH" Direction.PUT 3500 1719561600000 = "ETH-240628-3500-P" ∧
    deriveOptionSymbol "ETH" Direction.PUT (3450.5 : ℚ) 1719561600000
      = "ETH-240628-3450.5-P" ∧
    ∀ (coin : String) (d : Direction) (q : ℚ) (ts : ℤ), q.den = 1 →
      deriveOptionSymbol coin d q ts
        = coin ++ "-" ++ _expiry_yymmdd ts ++ "-" ++ toString q.num
          ++ "-" ++ dirLetter d := by
  refine ⟨by with_unfolding_all decide, by with_unfolding_all decide, ?_⟩
  intro coin d q ts h
  rw [deriveOptionSymbol, _format_strike, if_pos h]

/-- C10: a matched ticker whose positive bid does not cover the fee
(0 < B ≤ spot * 0.00024) still produces a comparison row — rows are not
filtered by profitability — with non-positive net option APR and zero spread
percentage, and that row is part of the result list over which the
statistics are computed (the statistics count equals the row-list length). -/
theorem unprofitable_row_kept (coin : String) (spot now : ℚ)
    (tickers : String → Option Ticker) (p : Product) (ps : List Product)
    (t : Ticker) (B : ℚ)
    (htk : tickers (deriveOptionSymbol coin p.optionType p.strikePrice p.settleDate) = some t)
    (hbp : t.bidPrice = BidField.num B)
    (hB : 0 < B) (hBfee : B ≤ spot * 0.00024)
    (hS : 0 < spot) (hK : 0 < p.strikePrice) :
    ∃ r, stepProduct coin 100000 spot now tickers p = Sum.inl r ∧
      r.optionAPRNet ≤ 0 ∧ r.spreadPct = 0 ∧
      r ∈ (compare coin spot now tickers (p :: ps)).results ∧
      (compare coin spot now tickers (p :: ps)).stats.count
        = (compare coin spot now tickers (p :: ps)).results.length := by
  have hbid : t.bidPrice.toQ = B := by rw [hbp]; rfl
  have hpos : ¬ t.bidPrice.toQ ≤ 0 := by rw [hbid]; exact not_le.mpr hB
  have hd : 0 < _days_until p.settleDate now := days_until_pos _ _
  have hnet : (normalize 100000 spot p.optionType p.strikePrice
      (_days_until p.settleDate now) p.apr t.bidPrice.toQ).optionAprNet ≤ 0 := by
    rw [hbid]
    have h1 : B - spot * 0.00024 ≤ 0 := by linarith
    have h365 : (0:ℚ) ≤ 365 / _days_until p.settleDate now := by positivity
    cases p.optionType with
    | PUT =>
      rw [normalize_net_put]
      exact mul_nonpos_of_nonpos_of_nonneg
        (div_nonpos_of_nonpos_of_nonneg h1 hK.le) h365
    | CALL =>
      rw [normalize_net_call]
      exact mul_nonpos_of_nonpos_of_nonneg
        (div_nonpos_of_nonpos_of_nonneg h1 hS.le) h365
  have hsp0 : (normalize 100000 spot p.optionType p.strikePrice
      (_days_until p.settleDate now) p.apr t.bidPrice.toQ).spreadPct = 0 := by
    rw [normalize_spreadPct, if_neg (not_lt.mpr hnet)]
  have hstep : ∃ r, stepProduct coin 100000 spot now tickers p = Sum.inl r
      ∧ r.optionAPRNet = roundTo 6 ((normalize 100000 spot p.optionType p.strikePrice
          (_days_until p.settleDate now) p.apr t.bidPrice.toQ).optionAprNet)
      ∧ r.spreadPct = roundTo 2 ((normalize 100000 spot p.optionType p.strikePrice
          (_days_until p.settleDate now) p.apr t.bidPrice.toQ).spreadPct) := by
    simp only [stepProduct, htk]
    rw [if_neg hpos]
    exact ⟨_, rfl, rfl, rfl⟩
  obtain ⟨r, hr, hrnet, hrsp⟩ := hstep
  refine ⟨r, hr, ?_, ?_, ?_, ?_⟩
  · rw [hrnet]; exact roundTo_nonpos hnet
  · rw [hrsp, hsp0, roundTo_zero]
  · simp only [compare, splitProducts, hr]
    exact List.mem_cons_self _ _
  · simp only [compare, computeStats]

/-! ### Concrete-run helper lemmas -/

theorem cex_days : _days_until 86400000 0 = 1 := by
  rw [_days_until]
  rw [show max ((((86400000 : ℤ) : ℚ) / 1000 - 0) / 86400) 0.01 = 1 by
    rw [max_eq_left (by norm_num)]; norm_num]
  have h := roundTo_eq_div (n := 2) (x := (1 : ℚ)) (k := 100) (by norm_num) (by norm_num)
  rw [h]; norm_num

theorem cex_sym : deriveOptionSymbol "ETH" Direction.PUT 1000 86400000
    = "ETH-700102-1000-P" := by with_unfolding_all decide

theorem cex_lk : cexTickers "ETH-700102-1000-P" = some cexTicker := by
  with_unfolding_all decide

theorem cex_step1 : ∃ r, stepProduct "ETH" 100000 1000 0 cexTickers cexProduct1
    = Sum.inl r ∧ r.diffAPR = 0.000001 := by
  have hdiff : (normalize 100000 1000 Direction.PUT 1000 (_days_until 86400000 0)
      (0.2773993 : ℚ) 1).diffApr = 0.0000007 := by
    rw [cex_days, normalize_diffApr, normalize_net_put]; norm_num
  have hround : roundTo 6 ((0.0000007 : ℚ)) = 0.000001 := by
    have h := roundTo_eq_div (n := 6) (x := (0.0000007 : ℚ)) (k := 1)
      (by norm_num) (by norm_num)
    rw [h]; norm_num
  simp only [stepProduct, cexProduct1, cex_sym, cex_lk, cexTicker, BidField.toQ]
  rw [if_neg (by norm_num : ¬ (1:ℚ) ≤ 0)]
  refine ⟨_, rfl, ?_⟩
  dsimp only
  rw [hdiff, hround]

theorem cex_step2 : ∃ r, stepProduct "ETH" 100000 1000 0 cexTickers cexProduct2
    = Sum.inl r ∧ r.diffAPR = 0 := by
  have hdiff : (normalize 100000 1000 Direction.PUT 1000 (_days_until 86400000 0)
      (0.2774 : ℚ) 1).diffApr = 0 := by
    rw [cex_days, normalize_diffApr, normalize_net_put]; norm_num
  simp only [stepProduct, cexProduct2, cex_sym, cex_lk, cexTicker, BidField.toQ]
  rw [if_neg (by norm_num : ¬ (1:ℚ) ≤ 0)]
  refine ⟨_, rfl, ?_⟩
  dsimp only
  rw [hdiff, roundTo_zero]

theorem cex_avg_code : (compare "ETH" 1000 0 cexTickers cexProducts).stats.avgDiffAPR
    = 0.000001 := by
  obtain ⟨r1, hr1, hd1⟩ := cex_step1
  obtain ⟨r2, hr2, hd2⟩ := cex_step2
  have hres : (splitProducts (stepProduct "ETH" 100000 1000 0 cexTickers) cexProducts).1
      = [r1, r1, r2] := by
    simp only [cexProducts, splitProducts, hr1, hr2]
  simp only [compare, computeStats]
  rw [hres]
  simp only [List.map_cons, List.map_nil, List.sum_cons, List.sum_nil,
    List.length_cons, List.length_nil]
  rw [hd1, hd2]
  rw [if_neg (by simp)]
  rw [show ((0.000001 : ℚ) + (0.000001 + (0 + 0))) / (((0 + 1 + 1 + 1 : ℕ) : ℚ))
    = 1 / 1500000 from by norm_num]
  have h := roundTo_eq_div (n := 6) (x := (1 : ℚ) / 1500000) (k := 1)
    (by norm_num) (by norm_num)
  rw [h]; norm_num

theorem cex_avg_unrounded : avgDiffAPRUnrounded "ETH" 1000 0 cexTickers cexProducts = 0 := by
  obtain ⟨r1, hr1, _⟩ := cex_step1
  obtain ⟨r2, hr2, _⟩ := cex_step2
  have hdiff1 : (normalize 100000 1000 Direction.PUT 1000 (_days_until 86400000 0)
      (0.2773993 : ℚ) 1).diffApr = 0.0000007 := by
    rw [cex_days, normalize_diffApr, normalize_net_put]; norm_num
  have hdiff2 : (normalize 100000 1000 Direction.PUT 1000 (_days_until 86400000 0)
      (0.2774 : ℚ) 1).diffApr = 0 := by
    rw [cex_days, normalize_diffApr, normalize_net_put]; norm_num
  have hds : unroundedDiffs "ETH" 100000 1000 0 cexTickers cexProducts
      = [0.0000007, 0.0000007, 0] := by
    simp only [cexProducts, unroundedDiffs, hr1, hr2]
    simp only [cexProduct1, cexProduct2, cex_sym, cex_lk, cexTicker, BidField.toQ]
    rw [hdiff1, hdiff2]
  simp only [avgDiffAPRUnrounded]
  rw [hds]
  rw [if_neg (by simp)]
  simp only [List.sum_cons, List.sum_nil, List.length_cons, List.length_nil]
  rw [show ((0.0000007 : ℚ) + (0.0000007 + (0 + 0))) / (((0 + 1 + 1 + 1 : ℕ) : ℚ))
    = 7 / 15000000 from by norm_num]
  have h := roundTo_eq_div (n := 6) (x := (7 : ℚ) / 15000000) (k := 0)
    (by norm_num) (by norm_num)
  rw [h]; norm_num

theorem cex_step1_row : stepProduct "ETH" 100000 1000 0 cexTickers cexProduct1
    = Sum.inl cexRow1 := by
  obtain ⟨r, hr, _⟩ := cex_step1
  have hrow : cexRow1 = r := by unfold cexRow1; rw [hr]
  rw [hrow]; exact hr

/-- C7 counterexample: on a concrete three-product run the code's average
differential APR — computed from the rounded per-row diffAPR fields — is
0.000001, while the same average taken over the unrounded intermediate
differentials is 0; so a rounded value does feed the aggregate statistics,
contrary to the claim. -/
theorem stats_use_rounded_cex :
    (compare "ETH" 1000 0 cexTickers cexProducts).stats.avgDiffAPR = 0.000001 ∧
    avgDiffAPRUnrounded "ETH" 1000 0 cexTickers cexProducts = 0 ∧
    (compare "ETH" 1000 0 cexTickers cexProducts).stats.avgDiffAPR
      ≠ avgDiffAPRUnrounded "ETH" 1000 0 cexTickers cexProducts :=
  ⟨cex_avg_code, cex_avg_unrounded, by
    rw [cex_avg_code, cex_avg_unrounded]; norm_num⟩

/-- C7 (amended): rounding of the per-row metrics is presentation-only — each
row field is the rounding of the corresponding metric computed from the
unrounded bid and spot (with the days input being daysUntil's already-rounded
output) — but the aggregate statistics are computed from the
presentation-rounded row fields spreadPct and diffAPR, not from unrounded
intermediate values. -/
theorem rounding_presentation_amended (coin : String) (spot now : ℚ)
    (tickers : String → Option Ticker) (products : List Product) :
    ((compare coin spot now tickers products).stats.avgDiffAPR
      = (if ((compare coin spot now tickers products).results.map
            (fun r => r.diffAPR)).isEmpty then 0
         else roundTo 6 (((compare coin spot now tickers products).results.map
              (fun r => r.diffAPR)).sum
            / ((((compare coin spot now tickers products).results.map
              (fun r => r.diffAPR)).length : ℕ) : ℚ)))) ∧
    ((compare coin spot now tickers products).stats.avgSpread
      = (if ((compare coin spot now tickers products).results.map
            (fun r => r.spreadPct)).isEmpty then 0
         else roundTo 2 (((compare coin spot now tickers products).results.map
              (fun r => r.spreadPct)).sum
            / ((((compare coin spot now tickers products).results.map
              (fun r => r.spreadPct)).length : ℕ) : ℚ)))) ∧
    (∀ (inv : ℚ) (p : Product) (t : Ticker) (r : Row),
      tickers (deriveOptionSymbol coin p.optionType p.strikePrice p.settleDate) = some t →
      stepProduct coin inv spot now tickers p = Sum.inl r →
      r.optionAPRNet = roundTo 6 ((normalize inv spot p.optionType p.strikePrice
          (_days_until p.settleDate now) p.apr t.bidPrice.toQ).optionAprNet) ∧
      r.diffAPR = roundTo 6 ((normalize inv spot p.optionType p.strikePrice
          (_days_until p.settleDate now) p.apr t.bidPrice.toQ).diffApr) ∧
      r.spreadPct = roundTo 2 ((normalize inv spot p.optionType p.strikePrice
          (_days_until p.settleDate now) p.apr t.bidPrice.toQ).spreadPct) ∧
      r.days = _days_until p.settleDate now) := by
  refine ⟨rfl, rfl, ?_⟩
  intro inv p t r htk hstep
  simp only [stepProduct, htk] at hstep
  by_cases hb : t.bidPrice.toQ ≤ 0
  · rw [if_pos hb] at hstep
    simp at hstep
  · rw [if_neg hb] at hstep
    injection hstep with h
    subst h
    exact ⟨rfl, rfl, rfl, rfl⟩

/-! ### Witnesses -/

theorem yield_normalizer_formulas_witness :
    (normalize 100000 3000 Direction.PUT 2900 7 (0.10 : ℚ) 15).fee = 3000 * 0.00024 :=
  (yield_normalizer_formulas 100000 3000 2900 7 (0.10 : ℚ) 15 Direction.PUT
    (by norm_num) (by norm_num) (by norm_num) (by norm_num)).1

theorem matching_classification_witness :
    (∃ u, stepProduct "ETH" 100000 1000 0 exTickers exProdC = Sum.inr u
      ∧ u.reason = "no contract") ∧
    (∃ u, stepProduct "ETH" 100000 1000 0 exTickers exProdB = Sum.inr u
      ∧ u.reason = "no bid") ∧
    (∃ r, stepProduct "ETH" 100000 1000 0 exTickers exProdA = Sum.inl r) :=
  ⟨(matching_classification "ETH" 100000 1000 0 exTickers exProdC).1
      (by with_unfolding_all decide),
   (matching_classification "ETH" 100000 1000 0 exTickers exProdB).2.1 exTicker0
      (by with_unfolding_all decide) (by with_unfolding_all decide),
   (matching_classification "ETH" 100000 1000 0 exTickers exProdA).2.2.1 exTicker1
      (by with_unfolding_all decide) (by with_unfolding_all decide)⟩

theorem stats_empty_zero_witness :
    (compare "ETH" 1000 0 exTickers []).stats.avgSpread = 0 ∧
    (compare "ETH" 1000 0 exTickers []).stats.maxSpread = 0 ∧
    (compare "ETH" 1000 0 exTickers []).stats.minSpread = 0 ∧
    (compare "ETH" 1000 0 exTickers []).stats.avgDiffAPR = 0 :=
  stats_empty_zero "ETH" 1000 0 exTickers [] rfl

theorem derive_option_symbol_spec_witness :
    deriveOptionSymbol "BTC" Direction.CALL 42 86400000
      = "BTC" ++ "-" ++ _expiry_yymmdd 86400000 ++ "-" ++ toString ((42 : ℚ)).num
        ++ "-" ++ dirLetter Direction.CALL :=
  derive_option_symbol_spec.2.2 "BTC" Direction.CALL 42 86400000
    (by with_unfolding_all decide)

theorem fee_monotone_witness :
    (normalize 100000 3000 Direction.PUT 2900 7 (0.10 : ℚ) 15).optionAprNet
      ≤ (normalize 100000 3000 Direction.PUT 2900 7 (0.10 : ℚ) 15).optionAprGross ∧
    roundTo 6 (normalize 100000 3000 Direction.PUT 2900 7 (0.10 : ℚ) 15).optionAprNet
      ≤ roundTo 6 (normalize 100000 3000 Direction.PUT 2900 7 (0.10 : ℚ) 15).optionAprGross :=
  fee_monotone 100000 3000 2900 7 (0.10 : ℚ) 15 Direction.PUT
    (by norm_num) (by norm_num) (by norm_num)

theorem missing_bid_coerced_witness :
    exTickerNull.bidPrice.toQ = 0 ∧
    ∃ u, stepProduct "ETH" 100000 1000 0 exTickersNull exProdA = Sum.inr u
      ∧ u.reason = "no bid" :=
  missing_bid_coerced "ETH" 100000 1000 0 exTickersNull exProdA exTickerNull
    (by with_unfolding_all decide) (Or.inr (Or.inl rfl))

theorem unprofitable_row_kept_witness :
    ∃ r, stepProduct "ETH" 100000 1000 0 exTickersLow exProdA = Sum.inl r ∧
      r.optionAPRNet ≤ 0 ∧ r.spreadPct = 0 ∧
      r ∈ (compare "ETH" 1000 0 exTickersLow (exProdA :: [])).results ∧
      (compare "ETH" 1000 0 exTickersLow (exProdA :: [])).stats.count
        = (compare "ETH" 1000 0 exTickersLow (exProdA :: [])).results.length :=
  unprofitable_row_kept "ETH" 1000 0 exTickersLow exProdA [] exTickerLow (0.2 : ℚ)
    (by with_unfolding_all decide) rfl (by norm_num) (by norm_num) (by norm_num)
    (by norm_num [exProdA])

theorem rounding_presentation_amended_witness :
    cexRow1.optionAPRNet = roundTo 6 ((normalize 100000 1000 cexProduct1.optionType
        cexProduct1.strikePrice (_days_until cexProduct1.settleDate 0)
        cexProduct1.apr cexTicker.bidPrice.toQ).optionAprNet) ∧
    cexRow1.diffAPR = roundTo 6 ((normalize 100000 1000 cexProduct1.optionType
        cexProduct1.strikePrice (_days_until cexProduct1.settleDate 0)
        cexProduct1.apr cexTicker.bidPrice.toQ).diffApr) ∧
    cexRow1.spreadPct = roundTo 2 ((normalize 100000 1000 cexProduct1.optionType
        cexProduct1.strikePrice (_days_until cexProduct1.settleDate 0)
        cexProduct1.apr cexTicker.bidPrice.toQ).spreadPct) ∧
    cexRow1.days = _days_until cexProduct1.settleDate 0 :=
  (rounding_presentation_amended "ETH" 1000 0 cexTickers cexProducts).2.2
    100000 cexProduct1 cexTicker cexRow1
    (by rw [show deriveOptionSymbol "ETH" cexProduct1.optionType cexProduct1.strikePrice
          cexProduct1.settleDate
        = deriveOptionSymbol "ETH" Direction.PUT 1000 86400000 from rfl, cex_sym]
        exact cex_lk)
    cex_step1_row

end OptionData
